import Mathlib

/-!
# x68Key: USB HID keyboard/mouse to Sharp X68000 converter

A shallow embedding of `src/src/main.cpp` and `src/include/layout_uk.h`.

* `uint8_t` values are `Nat` (bytes are reduced `% 256` where they are written),
  `int16_t` values are `Int`, C `bool` is `Bool`.
* The global variables of `main.cpp` are the fields of `State`; the two output
  streams (`Serial` and `x68kSerMouse`) are the lists of bytes written so far,
  oldest first.
* An array read `a[i]` is `a[i]?`; a handler returns `none` exactly when it
  would read an array outside its bounds.
* A local variable read before it is assigned takes its value from a parameter
  (`Uninit`): the program does not determine it.
* The USB host library is outside the repository: a poll is the list of events
  it delivers, each invoking its handler.
-/

set_option linter.unusedVariables false

namespace X68Key

/-! ## `layout_uk.h` -/

def CTRL_SCAN : Nat := 0x71
def SHIFT_SCAN : Nat := 0x70
def HIRA_SCAN : Nat := 0x56
def WIDTH_SCAN : Nat := 0x60
def OPT1_SCAN : Nat := 0x72
def OPT2_SCAN : Nat := 0x73

def keymapping : List Nat :=
  [0x00, 0x00, 0x00, 0x00, 0x1E, 0x2E, 0x2C, 0x20, 0x13, 0x21, 0x22, 0x23, 0x18, 0x24, 0x25, 0x26,
   0x30, 0x2F, 0x19, 0x1A, 0x11, 0x14, 0x1F, 0x15, 0x17, 0x2D, 0x12, 0x2B, 0x16, 0x2A, 0x02, 0x03,
   0x04, 0x05, 0x06, 0x07, 0x08, 0x09, 0x0A, 0x0B, 0x1D, 0x01, 0x0F, 0x10, 0x35, 0x0C, 0x00, 0x1C,
   0x29, 0x0E, 0x34, 0x27, 0x28, 0x5F, 0x31, 0x32, 0x33, 0x5D, 0x63, 0x64, 0x65, 0x66, 0x67, 0x68,
   0x69, 0x6A, 0x6B, 0x6C, 0x61, 0x62, 0x5A, 0x5B, 0x5C, 0x5E, 0x36, 0x39, 0x37, 0x3A, 0x38, 0x3D,
   0x3B, 0x3E, 0x3C, 0x3F, 0x40, 0x41, 0x42, 0x46, 0x4E, 0x4B, 0x4C, 0x4D, 0x47, 0x48, 0x49, 0x43,
   0x44, 0x45, 0x4F, 0x51, 0x0E, 0x72, 0x4A, 0x00, 0x00, 0x00, 0x00, 0x00, 0x00, 0x00, 0x00, 0x00]

def shifted_keymapping : List Nat :=
  [0x00, 0x00, 0x00, 0x00, 0x00, 0x00, 0x00, 0x00, 0x00, 0x00, 0x00, 0x00, 0x00, 0x00, 0x00, 0x00,
   0x00, 0x00, 0x00, 0x00, 0x00, 0x00, 0x00, 0x00, 0x00, 0x00, 0x00, 0x00, 0x00, 0x00, 0x00, 0x00,
   0x00, 0x00, 0x00, 0x00, 0x07, 0x28, 0x09, 0x0A, 0x00, 0x00, 0x00, 0x00, 0x00, 0x34, 0x27, 0x00,
   0x00, 0x00, 0x0D, 0x00, 0x00, 0x00, 0x00, 0x00, 0x00, 0x00, 0x00, 0x00, 0x00, 0x00, 0x00, 0x00,
   0x00, 0x00, 0x00, 0x00, 0x00, 0x00, 0x00, 0x00, 0x00, 0x00, 0x00, 0x00, 0x00, 0x00, 0x00, 0x00,
   0x00, 0x00, 0x00, 0x00, 0x00, 0x00, 0x00, 0x00, 0x00, 0x00, 0x00, 0x00, 0x00, 0x00, 0x00, 0x00,
   0x00, 0x00, 0x00, 0x00, 0x00, 0x00, 0x00, 0x00, 0x00, 0x00, 0x00, 0x00, 0x00, 0x00, 0x00, 0x00]

/-- Keys that are unshifted on the PC keyboard but shifted on the X68000,
as pairs: key, then mapped scancode. -/
def shifted_keys : List Nat :=
  [0x34, 0x08,
   0x32, 0x04,
   0x2E, 0x0C]

/-- Keys that are shifted on the PC keyboard but unshifted on the X68000,
as pairs: key, then mapped scancode. -/
def unshifted_keys : List Nat :=
  [0x23, 0x0D,
   0x33, 0x28,
   0x34, 0x1B]

def altKeysUSB : List Nat := [0x54, 0x55, 0x56, 0x3A, 0x3B, 0x3C, 0x3D, 0x3E]
def altKeyCodes : List Nat := [0x52, 0x53, 0x54, 0x55, 0x56, 0x57, 0x58, 0x59]

/-- C `sizeof` of a `uint8_t` array: its number of elements. -/
def sizeof (a : List Nat) : Nat := a.length

/-! ## `main.cpp`: constants and globals -/

def MOUSE_DIVIDER : Int := 0x03

/-- The macro `PRESS` is `& ~0x80`: on a promoted `uint8_t` operand the 16-bit
`int` mask `~0x80` is `0xFF7F`; `Serial.write` then keeps the low byte. -/
def PRESS (x : Nat) : Nat := (x &&& (0xFFFF - 0x80)) % 256

/-- The macro `RELEASE` is `| 0x80`; `Serial.write` keeps the low byte. -/
def RELEASE (x : Nat) : Nat := (x ||| 0x80) % 256

/-- The global variables of `main.cpp` together with the bytes written so far
to the keyboard stream `Serial` and to the mouse stream `x68kSerMouse`. -/
structure State where
  SHIFTED : Bool
  KEY_ENABLE : Bool
  rxbyte : Nat
  last_rxbyte : Nat
  mouse_left : Nat
  mouse_right : Nat
  leftGUI : Nat
  mouse_dx : Int
  mouse_dy : Int
  Serial : List Nat
  x68kSerMouse : List Nat
  deriving DecidableEq, Repr

/-- The globals as initialised at program start (zero-initialised statics). -/
def State.init : State :=
  { SHIFTED := false, KEY_ENABLE := false, rxbyte := 0, last_rxbyte := 0,
    mouse_left := 0, mouse_right := 0, leftGUI := 0, mouse_dx := 0, mouse_dy := 0,
    Serial := [], x68kSerMouse := [] }

/-- Model of `Serial.write(b)`: append one byte to the keyboard stream. -/
def State.write (s : State) (b : Nat) : State :=
  { s with Serial := s.Serial ++ [b] }

/-! ## `KbdRptParser` -/

/-- The loop of `doShiftOrUnshift`, `for (i; i < size; i += 2)`, by recursion
on `rem = size - i`, the number of indices left before `size`: the loop test
`i < size` is `rem > 0`, and after `i += 2` there are `rem - 2` left (none when
`rem = 1`). Leaving the loop returns 0. -/
def doShiftOrUnshiftFrom (list : List Nat) (key : Nat) : Nat → Nat → Option Nat
  | 0, _ => some 0
  | 1, i =>
    match list[i]? with
    | none => none
    | some k => if k = key then list[i + 1]? else some 0
  | rem + 2, i =>
    match list[i]? with
    | none => none
    | some k => if k = key then list[i + 1]? else doShiftOrUnshiftFrom list key rem (i + 2)

/-- If the keycode is found in the list, return the scancode that should be
sent to the X68000, else 0. -/
def doShiftOrUnshift (list : List Nat) (size : Nat) (key : Nat) : Option Nat :=
  doShiftOrUnshiftFrom list key size 0

/-- The alternative-key loop shared in shape by `OnKeyDown` and `OnKeyUp`,
`for (i; i < sizeof(altKeysUSB); i++) if (key == altKeysUSB[i]) { write; break; }`,
by recursion on `rem = sizeof(altKeysUSB) - i`; `frame` is `PRESS` or `RELEASE`. -/
def altKeysFrom (frame : Nat → Nat) (key : Nat) (s : State) : Nat → Nat → Option State
  | 0, _ => some s
  | rem + 1, i =>
    match altKeysUSB[i]? with
    | none => none
    | some k =>
      if key = k then
        match altKeyCodes[i]? with
        | none => none
        | some c => some (s.write (frame c))
      else altKeysFrom frame key s rem (i + 1)

/-- Key press handler, `KbdRptParser::OnKeyDown` (auto-repeat is compiled out:
`REPEAT_ENABLED` is not defined). -/
def OnKeyDown (s : State) (mod key : Nat) : Option State :=
  if s.leftGUI ≠ 0 then
    altKeysFrom PRESS key s (sizeof altKeysUSB) 0
  else if key < sizeof keymapping then
    if s.SHIFTED then
      match doShiftOrUnshift unshifted_keys (sizeof unshifted_keys) key with
      | none => none
      | some unshiftKey =>
        if unshiftKey > 0 then
          some (((s.write (RELEASE SHIFT_SCAN)).write (PRESS unshiftKey)).write (PRESS SHIFT_SCAN))
        else
          match shifted_keymapping[key]? with
          | none => none
          | some v =>
            if v ≠ 0 then some (s.write (PRESS v))
            else
              match keymapping[key]? with
              | none => none
              | some w => some (s.write (PRESS w))
    else
      match doShiftOrUnshift shifted_keys (sizeof shifted_keys) key with
      | none => none
      | some shiftKey =>
        if shiftKey > 0 then
          some (((s.write (PRESS SHIFT_SCAN)).write (PRESS shiftKey)).write (RELEASE SHIFT_SCAN))
        else
          match keymapping[key]? with
          | none => none
          | some w => some (s.write (PRESS w))
  else some s

/-- Key release handler, `KbdRptParser::OnKeyUp` (auto-repeat is compiled out). -/
def OnKeyUp (s : State) (mod key : Nat) : Option State :=
  if s.leftGUI ≠ 0 then
    altKeysFrom RELEASE key s (sizeof altKeysUSB) 0
  else if key < sizeof keymapping then
    if s.SHIFTED then
      match doShiftOrUnshift unshifted_keys (sizeof unshifted_keys) key with
      | none => none
      | some unshiftKey =>
        if unshiftKey > 0 then
          some (s.write (RELEASE unshiftKey))
        else
          match shifted_keymapping[key]? with
          | none => none
          | some v =>
            if v ≠ 0 then some (s.write (RELEASE v))
            else
              match keymapping[key]? with
              | none => none
              | some w => some (s.write (RELEASE w))
    else
      match doShiftOrUnshift shifted_keys (sizeof shifted_keys) key with
      | none => none
      | some shiftKey =>
        if shiftKey > 0 then
          some (s.write (RELEASE shiftKey))
        else
          match keymapping[key]? with
          | none => none
          | some w => some (s.write (RELEASE w))
  else some s

/-- Modelled from the spec: the bit-field type `MODIFIERKEYS` is declared by the
USB host library (`hidboot.h`), not in this repository. Its eight one-bit
fields are the bits of the HID boot-keyboard modifier byte, lowest first:
Left-Ctrl, Left-Shift, Left-Alt, Left-GUI, Right-Ctrl, Right-Shift, Right-Alt,
Right-GUI (so Left-Shift is `0x02` and Right-Shift is `0x20`). -/
structure MODIFIERKEYS where
  bmLeftCtrl : Nat
  bmLeftShift : Nat
  bmLeftAlt : Nat
  bmLeftGUI : Nat
  bmRightCtrl : Nat
  bmRightShift : Nat
  bmRightAlt : Nat
  bmRightGUI : Nat
  deriving DecidableEq, Repr

/-- The cast `*((uint8_t *)&m) = b`: bit `k` of the byte is the `k`-th field. -/
def MODIFIERKEYS.ofByte (b : Nat) : MODIFIERKEYS :=
  { bmLeftCtrl := b % 2,
    bmLeftShift := b / 2 % 2,
    bmLeftAlt := b / 4 % 2,
    bmLeftGUI := b / 8 % 2,
    bmRightCtrl := b / 16 % 2,
    bmRightShift := b / 32 % 2,
    bmRightAlt := b / 64 % 2,
    bmRightGUI := b / 128 % 2 }

/-- Modifier handler, `KbdRptParser::OnControlKeysChanged`: eight `if` blocks in
sequence, each acting on the state left by the previous one. -/
def OnControlKeysChanged (s : State) (before after : Nat) : State :=
  let beforeMod := MODIFIERKEYS.ofByte before
  let afterMod := MODIFIERKEYS.ofByte after
  let s1 :=
    if beforeMod.bmLeftCtrl ≠ afterMod.bmLeftCtrl then
      if afterMod.bmLeftCtrl = 0 then s.write (RELEASE CTRL_SCAN)
      else s.write (PRESS CTRL_SCAN)
    else s
  let s2 :=
    if beforeMod.bmLeftShift ≠ afterMod.bmLeftShift then
      if afterMod.bmLeftShift = 0 then
        { s1 with SHIFTED := false }.write (RELEASE SHIFT_SCAN)
      else
        { s1 with SHIFTED := true }.write (PRESS SHIFT_SCAN)
    else s1
  let s3 :=
    if beforeMod.bmLeftAlt ≠ afterMod.bmLeftAlt then
      if afterMod.bmLeftAlt = 0 then s2.write (RELEASE HIRA_SCAN)
      else s2.write (PRESS HIRA_SCAN)
    else s2
  let s4 :=
    if beforeMod.bmLeftGUI ≠ afterMod.bmLeftGUI then
      { s3 with leftGUI := afterMod.bmLeftGUI }
    else s3
  let s5 :=
    if beforeMod.bmRightCtrl ≠ afterMod.bmRightCtrl then
      if afterMod.bmRightCtrl = 0 then s4.write (RELEASE OPT2_SCAN)
      else s4.write (PRESS OPT2_SCAN)
    else s4
  let s6 :=
    if beforeMod.bmRightShift ≠ afterMod.bmRightShift then
      if afterMod.bmRightShift = 0 then
        { s5 with SHIFTED := false }.write (RELEASE SHIFT_SCAN)
      else
        { s5 with SHIFTED := true }.write (PRESS SHIFT_SCAN)
    else s5
  let s7 :=
    if beforeMod.bmRightAlt ≠ afterMod.bmRightAlt then
      if afterMod.bmRightAlt = 0 then s6.write (RELEASE WIDTH_SCAN)
      else s6.write (PRESS WIDTH_SCAN)
    else s6
  -- `if (beforeMod.bmRightGUI != afterMod.bmRightGUI) { }`: the right GUI key is unused
  if beforeMod.bmRightGUI ≠ afterMod.bmRightGUI then s7 else s7

/-! ## `MouseRptParser` -/

/-- Modelled from the spec: the report type `MOUSEINFO` is declared by the USB
host library (`hidboot.h`), not in this repository; the handlers read only its
two signed 8-bit motion fields `dX` and `dY`. -/
structure MOUSEINFO where
  dX : Int
  dY : Int
  deriving DecidableEq, Repr

/-- The value stored into an `int16_t`: the two's-complement value of the low
16 bits. -/
def wrap16 (x : Int) : Int := (x + 32768) % 65536 - 32768

/-- Mouse move handler, `MouseRptParser::OnMouseMove`; C `/` on integers
truncates toward zero. -/
def OnMouseMove (s : State) (mi : MOUSEINFO) : State :=
  { s with
    mouse_dx := wrap16 (s.mouse_dx + Int.tdiv mi.dX MOUSE_DIVIDER),
    mouse_dy := wrap16 (s.mouse_dy + Int.tdiv mi.dY MOUSE_DIVIDER) }

/-- With `REPEAT_ENABLED` undefined the body of `resetRepeat` is empty. -/
def resetRepeat (s : State) : State := s

/-- The values the locals `x_ovp`, `x_ovn`, `y_ovp` hold when the mouse frame
block is entered. The declaration `uint8_t x_ovp, x_ovn, y_ovp, y_ovn = 0;`
initialises only `y_ovn`; the other three start with whatever byte their
storage holds, which the program does not determine. -/
structure Uninit where
  x_ovp : Nat
  x_ovn : Nat
  y_ovp : Nat
  deriving DecidableEq, Repr

/-- The three bytes of `mouse_packet`, as computed in `loop`; each is stored in
a `uint8_t`, so it is reduced modulo 256. -/
def mouse_packet (u : Uninit) (s : State) : List Nat :=
  let x_ovp := if s.mouse_dx > 127 then 1 else u.x_ovp
  let x_ovn := if s.mouse_dx < -128 then 1 else u.x_ovn
  let y_ovp := if s.mouse_dy > 127 then 1 else u.y_ovp
  let y_ovn := if s.mouse_dy < -128 then 1 else 0
  [ ((y_ovn <<< 7) ||| (y_ovp <<< 6) ||| (x_ovn <<< 5) ||| (x_ovp <<< 4) |||
      (s.mouse_right <<< 1) ||| s.mouse_left) % 256,
    (s.mouse_dx % 256).toNat,
    (s.mouse_dy % 256).toNat ]

/-- The block run on `0x40` after `0x41` (MSCTRL toggle H->L): build the
packet, reset the accumulated motion, write the three bytes to `x68kSerMouse`. -/
def mouseFrame (u : Uninit) (s : State) : State :=
  { s with mouse_dx := 0, mouse_dy := 0, x68kSerMouse := s.x68kSerMouse ++ mouse_packet u s }

/-- One pass of the body of `while (Serial.available() > 0)` in `loop`, for the
byte `b` returned by `Serial.read()`; `u` is what the uninitialised locals hold
if the mouse frame block is entered. `DEBUG` and `REPEAT_ENABLED` are
undefined. The `switch (rxbyte & 0xF0)` is the chain of tests on `sw`. -/
def rxStep (u : Uninit) (s : State) (b : Nat) : State :=
  let s1 := { s with last_rxbyte := s.rxbyte, rxbyte := b }
  let sw := s1.rxbyte &&& 0xF0
  if sw = 0x40 then
    if s1.rxbyte = 0x40 ∧ s1.last_rxbyte = 0x41 then mouseFrame u s1
    else if s1.rxbyte = 0x48 then { s1 with KEY_ENABLE := false }
    else if s1.rxbyte = 0x49 then { s1 with KEY_ENABLE := true }
    else s1
  else if sw = 0x50 then s1
  else if sw = 0x60 then s1
  else if sw = 0x70 then s1
  else if sw = 0x80 then s1
  else if sw = 0xF0 then
    if s1.rxbyte = 0xFD then resetRepeat s1
    else if s1.rxbyte = 0xFF then resetRepeat s1
    else s1
  else s1

/-- The keys of a remap list (`shifted_keys`, `unshifted_keys`): its entries
at even positions. -/
def remapKeys : List Nat → List Nat
  | k :: _ :: rest => k :: remapKeys rest
  | _ => []

/-- The (key, mapped scancode) pairs of a remap list. -/
def remapPairs : List Nat → List (Nat × Nat)
  | k :: v :: rest => (k, v) :: remapPairs rest
  | _ => []

/-- Bit `k` of a modifier bitmask: 0 or 1. -/
def bit (b k : Nat) : Nat := b / 2 ^ k % 2

/-- What the specification says one modifier writes: if bit `k` changed, one
byte, the scancode `code` with bit 7 clear when the bit is set in `after` and
with bit 7 set when it is clear in `after`; nothing if the bit did not change. -/
def modifierByte (before after k code : Nat) : List Nat :=
  if bit before k ≠ bit after k then
    [if bit after k = 1 then code &&& 0x7F else code ||| 0x80]
  else []

/-- What the specification says `OnControlKeysChanged` writes: one byte per
changed bit among Left-Ctrl, Left-Shift, Left-Alt, Right-Ctrl, Right-Shift,
Right-Alt, in that order; the GUI bits (3 and 7) contribute nothing. -/
def modifierBytes (before after : Nat) : List Nat :=
  modifierByte before after 0 0x71 ++ modifierByte before after 1 0x70 ++
  modifierByte before after 2 0x56 ++ modifierByte before after 4 0x73 ++
  modifierByte before after 5 0x70 ++ modifierByte before after 6 0x60

/-- What the specification says the first byte of the mouse packet is:
`(y_ovn<<7)|(y_ovp<<6)|(x_ovn<<5)|(x_ovp<<4)|(right<<1)|left`, every overflow
flag being 1 when its condition holds and 0 when it does not. -/
def specByte0 (dx dy : Int) (left right : Nat) : Nat :=
  let y_ovn := if dy < -128 then 1 else 0
  let y_ovp := if dy > 127 then 1 else 0
  let x_ovn := if dx < -128 then 1 else 0
  let x_ovp := if dx > 127 then 1 else 0
  (y_ovn <<< 7) ||| (y_ovp <<< 6) ||| (x_ovn <<< 5) ||| (x_ovp <<< 4) ||| (right <<< 1) ||| left

/-- The host-visible Shift key after a keyboard stream: pressed after a `0x70`
byte, released after a `0xF0` byte, unchanged by any other byte, released
initially. -/
def hostShift (stream : List Nat) : Bool :=
  stream.foldl (fun pressed b => if b = 0x70 then true else if b = 0xF0 then false else pressed)
    false

/-- The host-visible Shift key after further bytes, starting from `pressed`. -/
def shiftAfter (pressed : Bool) (bytes : List Nat) : Bool :=
  bytes.foldl (fun pressed b => if b = 0x70 then true else if b = 0xF0 then false else pressed)
    pressed

/-- A Shift byte: the press `0x70` or the release `0xF0` of the Shift key. -/
def isShiftByte (b : Nat) : Bool := b = 0x70 || b = 0xF0

/-! ## The steps of `OnControlKeysChanged`, for the proofs -/

/-- One Ctrl/Alt block of `OnControlKeysChanged`: on a changed bit write the
scancode, released if the bit is now clear, pressed otherwise. -/
def modifierStep (scan b a : Nat) (s : State) : State :=
  if b ≠ a then
    if a = 0 then s.write (RELEASE scan) else s.write (PRESS scan)
  else s

/-- One Shift block of `OnControlKeysChanged`: as `modifierStep` for
`SHIFT_SCAN`, and `SHIFTED` is assigned the new value of the bit. -/
def shiftStep (b a : Nat) (s : State) : State :=
  if b ≠ a then
    if a = 0 then { s with SHIFTED := false }.write (RELEASE SHIFT_SCAN)
    else { s with SHIFTED := true }.write (PRESS SHIFT_SCAN)
  else s

/-- The Left-GUI block of `OnControlKeysChanged`. -/
def leftGUIStep (b a : Nat) (s : State) : State :=
  if b ≠ a then { s with leftGUI := a } else s

/-! ## What a key handler writes, read off a probe state, for the proofs -/

/-- A state in which only `SHIFTED` and the alt layer are set and nothing has
been written. -/
def probe (shifted gui : Bool) : State :=
  { State.init with SHIFTED := shifted, leftGUI := if gui then 1 else 0 }

/-- The bytes `OnKeyDown` writes for a key, given `SHIFTED` and whether the alt
layer is active. -/
def downBytes (shifted gui : Bool) (key : Nat) : Option (List Nat) :=
  (OnKeyDown (probe shifted gui) 0 key).map State.Serial

/-- The bytes `OnKeyUp` writes for a key, given `SHIFTED` and whether the alt
layer is active. -/
def upBytes (shifted gui : Bool) (key : Nat) : Option (List Nat) :=
  (OnKeyUp (probe shifted gui) 0 key).map State.Serial

/-! ## Table facts -/

theorem sizeof_keymapping : sizeof keymapping = 112 := by decide

theorem doShiftOrUnshift_shifted_keys (key : Nat) :
    doShiftOrUnshift shifted_keys (sizeof shifted_keys) key =
      some (if key = 0x34 then 0x08 else if key = 0x32 then 0x04
            else if key = 0x2E then 0x0C else 0) := by
  simp only [doShiftOrUnshift, sizeof, shifted_keys, List.length_cons, List.length_nil,
    doShiftOrUnshiftFrom]
  by_cases h1 : key = 0x34
  · subst h1; rfl
  by_cases h2 : key = 0x32
  · subst h2; rfl
  by_cases h3 : key = 0x2E
  · subst h3; rfl
  have e1 : ¬ (0x34 = key) := fun h => h1 h.symm
  have e2 : ¬ (0x32 = key) := fun h => h2 h.symm
  have e3 : ¬ (0x2E = key) := fun h => h3 h.symm
  simp [doShiftOrUnshiftFrom, h1, h2, h3, e1, e2, e3]

theorem doShiftOrUnshift_unshifted_keys (key : Nat) :
    doShiftOrUnshift unshifted_keys (sizeof unshifted_keys) key =
      some (if key = 0x23 then 0x0D else if key = 0x33 then 0x28
            else if key = 0x34 then 0x1B else 0) := by
  simp only [doShiftOrUnshift, sizeof, unshifted_keys, List.length_cons, List.length_nil,
    doShiftOrUnshiftFrom]
  by_cases h1 : key = 0x23
  · subst h1; rfl
  by_cases h2 : key = 0x33
  · subst h2; rfl
  by_cases h3 : key = 0x34
  · subst h3; rfl
  have e1 : ¬ (0x23 = key) := fun h => h1 h.symm
  have e2 : ¬ (0x33 = key) := fun h => h2 h.symm
  have e3 : ¬ (0x34 = key) := fun h => h3 h.symm
  simp [doShiftOrUnshiftFrom, h1, h2, h3, e1, e2, e3]

theorem State.write_eq (s : State) (b : Nat) :
    s.write b = { s with Serial := s.Serial ++ [b] } := rfl

theorem PRESS_eq (x : Nat) (hx : x < 256) : PRESS x = x &&& 0x7F := by
  unfold PRESS
  interval_cases x <;> rfl

theorem RELEASE_eq (x : Nat) (hx : x < 256) : RELEASE x = x ||| 0x80 := by
  unfold RELEASE
  interval_cases x <;> rfl

theorem keymapping_lt (K : Nat) (hK : K < keymapping.length) : keymapping[K] < 128 := by
  have h : ∀ x ∈ keymapping, x < 128 := by decide
  exact h _ (List.getElem_mem _)

/-! ## C1 -/

/-- C1: for every keycode `K` below the length of `keymapping` that is not a
key of `shifted_keys`, with `SHIFTED` false and the alt layer inactive,
`OnKeyDown` appends exactly the one byte `keymapping[K]` with bit 7 clear to
the keyboard stream and `OnKeyUp` exactly the one byte `keymapping[K]` with
bit 7 set; nothing else changes. -/
theorem C1_plain_key_unshifted (s : State) (mod K : Nat) (hK : K < keymapping.length)
    (hnot : K ∉ remapKeys shifted_keys) (hS : s.SHIFTED = false) (hG : s.leftGUI = 0) :
    OnKeyDown s mod K = some { s with Serial := s.Serial ++ [keymapping[K] &&& 0x7F] } ∧
    OnKeyUp s mod K = some { s with Serial := s.Serial ++ [keymapping[K] ||| 0x80] } := by
  have hk : K < sizeof keymapping := hK
  have hget : keymapping[K]? = some keymapping[K] := List.getElem?_eq_getElem hK
  have hlt : keymapping[K] < 256 := Nat.lt_trans (keymapping_lt K hK) (by decide)
  simp only [remapKeys, shifted_keys, List.mem_cons, List.mem_nil_iff, or_false, not_or] at hnot
  obtain ⟨h1, h2, h3⟩ := hnot
  constructor
  · simp [OnKeyDown, hG, hS, hk, doShiftOrUnshift_shifted_keys, h1, h2, h3, hget,
      State.write_eq, PRESS_eq _ hlt]
  · simp [OnKeyUp, hG, hS, hk, doShiftOrUnshift_shifted_keys, h1, h2, h3, hget,
      State.write_eq, RELEASE_eq _ hlt]

/-- C1, witness: keycode `0x04` gives `0x1E` on press and `0x9E` on release. -/
theorem C1_plain_key_unshifted_witness :
    OnKeyDown State.init 0 0x04 = some { State.init with Serial := [0x1E] } ∧
    OnKeyUp State.init 0 0x04 = some { State.init with Serial := [0x9E] } := by
  have h := C1_plain_key_unshifted State.init 0 0x04 (by decide) (by decide) rfl rfl
  exact h

/-! ## C2 -/

/-- C2: for every keycode `K` that is a key of `shifted_keys` with mapped value
`V`, with `SHIFTED` false and the alt layer inactive, `OnKeyDown` appends
exactly the three bytes `0x70` (Shift press), `V` (press), `0xF0` (Shift
release) in that order, and `OnKeyUp` appends exactly the one byte `V | 0x80`,
with no Shift byte; nothing else changes. -/
theorem C2_force_shift_key (s : State) (mod K V : Nat)
    (hKV : (K, V) ∈ remapPairs shifted_keys) (hS : s.SHIFTED = false) (hG : s.leftGUI = 0) :
    OnKeyDown s mod K = some { s with Serial := s.Serial ++ [0x70, V, 0xF0] } ∧
    OnKeyUp s mod K = some { s with Serial := s.Serial ++ [V ||| 0x80] } := by
  simp only [remapPairs, shifted_keys, List.mem_cons, List.mem_nil_iff, or_false,
    Prod.mk.injEq] at hKV
  rcases hKV with ⟨rfl, rfl⟩ | ⟨rfl, rfl⟩ | ⟨rfl, rfl⟩ <;>
  · constructor
    · simp [OnKeyDown, hG, hS, sizeof_keymapping, doShiftOrUnshift_shifted_keys,
        State.write_eq, PRESS, RELEASE, SHIFT_SCAN]
      decide
    · simp [OnKeyUp, hG, hS, sizeof_keymapping, doShiftOrUnshift_shifted_keys,
        State.write_eq, RELEASE]

/-- C2, witness: keycode `0x32` gives `[0x70, 0x04, 0xF0]` on press and `[0x84]`
on release. -/
theorem C2_force_shift_key_witness :
    OnKeyDown State.init 0 0x32 = some { State.init with Serial := [0x70, 0x04, 0xF0] } ∧
    OnKeyUp State.init 0 0x32 = some { State.init with Serial := [0x84] } := by
  have h := C2_force_shift_key State.init 0 0x32 0x04 (by decide) rfl rfl
  exact h

/-! ## C3 -/

/-- C3: for every keycode `K` that is a key of `unshifted_keys` with mapped
value `V`, with `SHIFTED` true and the alt layer inactive, `OnKeyDown` appends
exactly the three bytes `0xF0` (Shift release), `V` (press), `0x70` (Shift
press) in that order, and `OnKeyUp` appends exactly the one byte `V | 0x80`;
nothing else changes. -/
theorem C3_force_unshift_key (s : State) (mod K V : Nat)
    (hKV : (K, V) ∈ remapPairs unshifted_keys) (hS : s.SHIFTED = true) (hG : s.leftGUI = 0) :
    OnKeyDown s mod K = some { s with Serial := s.Serial ++ [0xF0, V, 0x70] } ∧
    OnKeyUp s mod K = some { s with Serial := s.Serial ++ [V ||| 0x80] } := by
  simp only [remapPairs, unshifted_keys, List.mem_cons, List.mem_nil_iff, or_false,
    Prod.mk.injEq] at hKV
  rcases hKV with ⟨rfl, rfl⟩ | ⟨rfl, rfl⟩ | ⟨rfl, rfl⟩ <;>
  · constructor
    · simp [OnKeyDown, hG, hS, sizeof_keymapping, doShiftOrUnshift_unshifted_keys,
        State.write_eq, PRESS, RELEASE, SHIFT_SCAN]
      decide
    · simp [OnKeyUp, hG, hS, sizeof_keymapping, doShiftOrUnshift_unshifted_keys,
        State.write_eq, RELEASE]

/-- C3, witness: keycode `0x23` gives `[0xF0, 0x0D, 0x70]` on press and `[0x8D]`
on release. -/
theorem C3_force_unshift_key_witness :
    OnKeyDown { State.init with SHIFTED := true } 0 0x23 =
      some { State.init with SHIFTED := true, Serial := [0xF0, 0x0D, 0x70] } ∧
    OnKeyUp { State.init with SHIFTED := true } 0 0x23 =
      some { State.init with SHIFTED := true, Serial := [0x8D] } := by
  have h := C3_force_unshift_key { State.init with SHIFTED := true } 0 0x23 0x0D
    (by decide) rfl rfl
  exact h

/-! ## C4 -/

theorem shifted_keymapping_length : shifted_keymapping.length = keymapping.length := by decide

set_option maxRecDepth 8000 in
theorem shifted_keymapping_table :
    ∀ K, K < 112 → (shifted_keymapping[K]?).getD 0 < 128 ∧
      ((shifted_keymapping[K]?).getD 0 ≠ 0 →
        (shifted_keymapping[K]?).getD 0 ≠ (keymapping[K]?).getD 0 ∧
        (shifted_keymapping[K]?).getD 0 &&& 0x7F ≠ (keymapping[K]?).getD 0 &&& 0x7F ∧
        (shifted_keymapping[K]?).getD 0 ||| 0x80 ≠ (keymapping[K]?).getD 0 ||| 0x80) := by
  decide

/-- C4: for every keycode `K` below the length of `keymapping` that is not a
key of `unshifted_keys`, with `SHIFTED` true and the alt layer inactive, both
table slots `v = shifted_keymapping[K]` and `w = keymapping[K]` exist, and: if
`v` is nonzero, `OnKeyDown` appends exactly `v` with bit 7 clear and `OnKeyUp`
exactly `v` with bit 7 set, and `v` differs from `w` (so `keymapping[K]` is not
what is written); if `v` is zero, `w` is written instead with the same
framing. Nothing else changes. -/
theorem C4_shift_override (s : State) (mod K : Nat) (hK : K < keymapping.length)
    (hnot : K ∉ remapKeys unshifted_keys) (hS : s.SHIFTED = true) (hG : s.leftGUI = 0) :
    ∃ v w, shifted_keymapping[K]? = some v ∧ keymapping[K]? = some w ∧
      (v ≠ 0 →
        OnKeyDown s mod K = some { s with Serial := s.Serial ++ [v &&& 0x7F] } ∧
        OnKeyUp s mod K = some { s with Serial := s.Serial ++ [v ||| 0x80] } ∧
        v ≠ w ∧ (v &&& 0x7F) ≠ (w &&& 0x7F) ∧ (v ||| 0x80) ≠ (w ||| 0x80)) ∧
      (v = 0 →
        OnKeyDown s mod K = some { s with Serial := s.Serial ++ [w &&& 0x7F] } ∧
        OnKeyUp s mod K = some { s with Serial := s.Serial ++ [w ||| 0x80] }) := by
  have hk : K < sizeof keymapping := hK
  have hK' : K < shifted_keymapping.length := by rw [shifted_keymapping_length]; exact hK
  have hw : keymapping[K]? = some keymapping[K] := List.getElem?_eq_getElem hK
  have hv : shifted_keymapping[K]? = some shifted_keymapping[K] := List.getElem?_eq_getElem hK'
  have hwlt : keymapping[K] < 128 := keymapping_lt K hK
  have htab := shifted_keymapping_table K hK
  rw [hv, hw] at htab
  simp only [Option.getD_some] at htab
  obtain ⟨hvlt, hne⟩ := htab
  have hv256 : shifted_keymapping[K] < 256 := Nat.lt_trans hvlt (by decide)
  have hw256 : keymapping[K] < 256 := Nat.lt_trans hwlt (by decide)
  simp only [remapKeys, unshifted_keys, List.mem_cons, List.mem_nil_iff, or_false,
    not_or] at hnot
  obtain ⟨h1, h2, h3⟩ := hnot
  refine ⟨shifted_keymapping[K], keymapping[K], hv, hw, ?_, ?_⟩
  · intro hv0
    refine ⟨?_, ?_, hne hv0⟩
    · simp [OnKeyDown, hG, hS, hk, doShiftOrUnshift_unshifted_keys, h1, h2, h3, hv, hv0,
        State.write_eq, PRESS_eq _ hv256]
    · simp [OnKeyUp, hG, hS, hk, doShiftOrUnshift_unshifted_keys, h1, h2, h3, hv, hv0,
        State.write_eq, RELEASE_eq _ hv256]
  · intro hv0
    constructor
    · simp [OnKeyDown, hG, hS, hk, doShiftOrUnshift_unshifted_keys, h1, h2, h3, hv, hv0, hw,
        State.write_eq, PRESS_eq _ hw256]
    · simp [OnKeyUp, hG, hS, hk, doShiftOrUnshift_unshifted_keys, h1, h2, h3, hv, hv0, hw,
        State.write_eq, RELEASE_eq _ hw256]

/-- C4, witness: with `SHIFTED` true keycode `0x25` writes `0x28` on press and
`0xA8` on release, not `keymapping[0x25] = 0x09`. -/
theorem C4_shift_override_witness :
    keymapping[0x25]? = some 0x09 ∧
    OnKeyDown { State.init with SHIFTED := true } 0 0x25 =
      some { State.init with SHIFTED := true, Serial := [0x28] } ∧
    OnKeyUp { State.init with SHIFTED := true } 0 0x25 =
      some { State.init with SHIFTED := true, Serial := [0xA8] } := by
  obtain ⟨v, w, hv, hw, hnz, _⟩ :=
    C4_shift_override { State.init with SHIFTED := true } 0 0x25 (by decide) (by decide) rfl rfl
  have ev : shifted_keymapping[0x25]? = some 0x28 := by decide
  have hv' : v = 0x28 := by rw [ev] at hv; exact (Option.some.inj hv).symm
  subst hv'
  obtain ⟨hd, hu, _⟩ := hnz (by decide)
  exact ⟨by decide, hd, hu⟩

/-! ## C5 -/

/-- C5: with the alt layer active (`leftGUI` nonzero), for every keycode and
either value of `SHIFTED`: if the keycode occurs in `altKeysUSB` at first index
`i`, then `c = altKeyCodes[i]` exists, `OnKeyDown` appends exactly the one byte
`c` with bit 7 clear and `OnKeyUp` exactly the one byte `c` with bit 7 set,
neither byte is a Shift byte (`0x70`, `0xF0`) and neither is the framed
`keymapping` or `shifted_keymapping` value of the keycode; if the keycode does
not occur in `altKeysUSB`, both handlers leave the state unchanged and write
nothing. -/
theorem C5_alt_layer (s : State) (mod key : Nat) (hG : s.leftGUI ≠ 0) :
    (∀ i, i < altKeysUSB.length → altKeysUSB.indexOf key = i →
      ∃ c, altKeyCodes[i]? = some c ∧
        OnKeyDown s mod key = some { s with Serial := s.Serial ++ [c &&& 0x7F] } ∧
        OnKeyUp s mod key = some { s with Serial := s.Serial ++ [c ||| 0x80] } ∧
        (c &&& 0x7F) ∉ [0x70, 0xF0] ∧ (c ||| 0x80) ∉ [0x70, 0xF0] ∧
        (∀ w, keymapping[key]? = some w ∨ shifted_keymapping[key]? = some w →
          (c &&& 0x7F) ≠ (w &&& 0x7F) ∧ (c ||| 0x80) ≠ (w ||| 0x80))) ∧
    (key ∉ altKeysUSB → OnKeyDown s mod key = some s ∧ OnKeyUp s mod key = some s) := by
  constructor
  · intro i hi hidx
    have hmem : key ∈ altKeysUSB := List.indexOf_lt_length.mp (hidx ▸ hi)
    have hwk : ∀ w, keymapping[key]? = some w → w = (keymapping[key]?).getD 0 := by
      intro w hw; rw [hw]; rfl
    have hws : ∀ w, shifted_keymapping[key]? = some w →
        w = (shifted_keymapping[key]?).getD 0 := by
      intro w hw; rw [hw]; rfl
    simp only [altKeysUSB, List.mem_cons, List.mem_nil_iff, or_false] at hmem
    rcases hmem with rfl | rfl | rfl | rfl | rfl | rfl | rfl | rfl <;>
    · subst hidx
      refine ⟨_, rfl, ?_, ?_, by decide, by decide, ?_⟩
      · simp [OnKeyDown, hG, sizeof, altKeysUSB, altKeyCodes, altKeysFrom, State.write_eq, PRESS]
        decide
      · simp [OnKeyUp, hG, sizeof, altKeysUSB, altKeyCodes, altKeysFrom, State.write_eq, RELEASE]
      · intro w hw
        rcases hw with hw | hw
        · have e := hwk w hw
          subst e
          decide
        · have e := hws w hw
          subst e
          decide
  · intro hnot
    simp only [altKeysUSB, List.mem_cons, List.mem_nil_iff, or_false, not_or] at hnot
    obtain ⟨h1, h2, h3, h4, h5, h6, h7, h8⟩ := hnot
    constructor
    · simp [OnKeyDown, hG, sizeof, altKeysUSB, altKeysFrom, h1, h2, h3, h4, h5, h6, h7, h8]
    · simp [OnKeyUp, hG, sizeof, altKeysUSB, altKeysFrom, h1, h2, h3, h4, h5, h6, h7, h8]

/-- C5, witness: with the alt layer active keycode `0x3A` writes `0x55` on
press and `0xD5` on release, not `keymapping[0x3A] = 0x63`. -/
theorem C5_alt_layer_witness :
    keymapping[0x3A]? = some 0x63 ∧
    OnKeyDown { State.init with leftGUI := 1 } 0 0x3A =
      some { State.init with leftGUI := 1, Serial := [0x55] } ∧
    OnKeyUp { State.init with leftGUI := 1 } 0 0x3A =
      some { State.init with leftGUI := 1, Serial := [0xD5] } := by
  obtain ⟨c, hc, hd, hu, _⟩ :=
    (C5_alt_layer { State.init with leftGUI := 1 } 0 0x3A (by decide)).1 3
      (by decide) (by decide)
  have ec : altKeyCodes[3]? = some 0x55 := by decide
  have hc' : c = 0x55 := by rw [ec] at hc; exact (Option.some.inj hc).symm
  subst hc'
  exact ⟨by decide, hd, hu⟩

/-! ## C6 -/

/-- C6: for every keycode `K` at or above the length of `keymapping`
(`K ≥ 112`), with the alt layer inactive and either value of `SHIFTED`,
`OnKeyDown` and `OnKeyUp` return the state unchanged: no byte is written to
either stream and no global changes. -/
theorem C6_out_of_range_key (s : State) (mod K : Nat) (hK : keymapping.length ≤ K)
    (hG : s.leftGUI = 0) :
    OnKeyDown s mod K = some s ∧ OnKeyUp s mod K = some s := by
  have hk : ¬ K < sizeof keymapping := Nat.not_lt.mpr hK
  constructor
  · simp [OnKeyDown, hG, hk]
  · simp [OnKeyUp, hG, hk]

/-- C6, witness: keycode `0x70 = 112`, the first one past the table, with
`SHIFTED` true. -/
theorem C6_out_of_range_key_witness :
    keymapping.length = 112 ∧
    OnKeyDown { State.init with SHIFTED := true } 0 112 =
      some { State.init with SHIFTED := true } ∧
    OnKeyUp { State.init with SHIFTED := true } 0 112 =
      some { State.init with SHIFTED := true } :=
  ⟨by decide, C6_out_of_range_key { State.init with SHIFTED := true } 0 112 (by decide) rfl⟩

/-! ## C7 -/

/-- C7: `OnControlKeysChanged(0x00, 0x02)` (only the Left-Shift bit set in
`after`) appends exactly the one byte `0x70` (Shift press) and leaves `SHIFTED`
true, changing nothing else; and for every bitmask `m`,
`OnControlKeysChanged(m, m)` returns the state unchanged, so it writes nothing
and leaves `SHIFTED` and `leftGUI` as they were. -/
theorem C7_modifier_edge (s : State) :
    OnControlKeysChanged s 0x00 0x02 =
      { s with SHIFTED := true, Serial := s.Serial ++ [0x70] } ∧
    ∀ m, OnControlKeysChanged s m m = s := by
  constructor
  · simp [OnControlKeysChanged, MODIFIERKEYS.ofByte, State.write_eq, PRESS, SHIFT_SCAN]
    decide
  · intro m
    simp [OnControlKeysChanged]

/-! ## C8 -/

theorem bit_eq_zero_or_one (b k : Nat) : bit b k = 0 ∨ bit b k = 1 := by
  unfold bit; omega

/-- The handler `OnControlKeysChanged` is its eight blocks in sequence (the
Right-GUI block is empty). -/
theorem OnControlKeysChanged_eq (s : State) (before after : Nat) :
    OnControlKeysChanged s before after =
      modifierStep WIDTH_SCAN (bit before 6) (bit after 6)
        (shiftStep (bit before 5) (bit after 5)
          (modifierStep OPT2_SCAN (bit before 4) (bit after 4)
            (leftGUIStep (bit before 3) (bit after 3)
              (modifierStep HIRA_SCAN (bit before 2) (bit after 2)
                (shiftStep (bit before 1) (bit after 1)
                  (modifierStep CTRL_SCAN (bit before 0) (bit after 0) s)))))) := by
  simp only [OnControlKeysChanged, MODIFIERKEYS.ofByte, ite_self, bit, pow_zero, Nat.div_one,
    modifierStep, shiftStep, leftGUIStep]
  rfl

theorem modifierByte_eq (before after k code : Nat) (hc : code < 128) :
    modifierByte before after k code =
      if bit before k ≠ bit after k then
        [if bit after k = 0 then RELEASE code else PRESS code]
      else [] := by
  unfold modifierByte
  have hp : PRESS code = code &&& 0x7F := PRESS_eq code (Nat.lt_trans hc (by decide))
  have hr : RELEASE code = code ||| 0x80 := RELEASE_eq code (Nat.lt_trans hc (by decide))
  rw [hp, hr]
  rcases bit_eq_zero_or_one after k with h | h <;> simp [h]

theorem modifierStep_Serial (scan before after k : Nat) (hc : scan < 128) (s : State) :
    (modifierStep scan (bit before k) (bit after k) s).Serial =
      s.Serial ++ modifierByte before after k scan := by
  rw [modifierByte_eq _ _ _ _ hc]
  unfold modifierStep
  by_cases h : bit before k = bit after k <;> by_cases h0 : bit after k = 0 <;>
    simp_all [State.write_eq]

theorem shiftStep_Serial (before after k : Nat) (s : State) :
    (shiftStep (bit before k) (bit after k) s).Serial =
      s.Serial ++ modifierByte before after k 0x70 := by
  rw [modifierByte_eq _ _ _ _ (by decide)]
  unfold shiftStep
  by_cases h : bit before k = bit after k <;> by_cases h0 : bit after k = 0 <;>
    simp_all [State.write_eq, SHIFT_SCAN]

theorem leftGUIStep_Serial (b a : Nat) (s : State) : (leftGUIStep b a s).Serial = s.Serial := by
  unfold leftGUIStep
  by_cases h : b = a <;> simp [h]

/-- The bytes `OnControlKeysChanged` appends to the keyboard stream. -/
theorem OnControlKeysChanged_Serial (s : State) (before after : Nat) :
    (OnControlKeysChanged s before after).Serial = s.Serial ++ modifierBytes before after := by
  rw [OnControlKeysChanged_eq, modifierStep_Serial _ _ _ _ (by decide), shiftStep_Serial,
    modifierStep_Serial _ _ _ _ (by decide), leftGUIStep_Serial,
    modifierStep_Serial _ _ _ _ (by decide), shiftStep_Serial,
    modifierStep_Serial _ _ _ _ (by decide)]
  simp [modifierBytes, CTRL_SCAN, HIRA_SCAN, OPT2_SCAN, WIDTH_SCAN]

theorem modifierStep_frame (scan b a : Nat) (s : State) :
    modifierStep scan b a s = { s with Serial := (modifierStep scan b a s).Serial } := by
  unfold modifierStep
  split_ifs <;> rfl

theorem shiftStep_frame (b a : Nat) (s : State) :
    shiftStep b a s =
      { s with SHIFTED := (shiftStep b a s).SHIFTED, Serial := (shiftStep b a s).Serial } := by
  unfold shiftStep
  split_ifs <;> rfl

theorem leftGUIStep_frame (b a : Nat) (s : State) :
    leftGUIStep b a s = { s with leftGUI := (leftGUIStep b a s).leftGUI } := by
  unfold leftGUIStep
  split_ifs <;> rfl

theorem modifierStep_SHIFTED (scan b a : Nat) (s : State) :
    (modifierStep scan b a s).SHIFTED = s.SHIFTED := by
  rw [modifierStep_frame]

theorem modifierStep_leftGUI (scan b a : Nat) (s : State) :
    (modifierStep scan b a s).leftGUI = s.leftGUI := by
  rw [modifierStep_frame]

theorem modifierStep_x68kSerMouse (scan b a : Nat) (s : State) :
    (modifierStep scan b a s).x68kSerMouse = s.x68kSerMouse := by
  rw [modifierStep_frame]

theorem shiftStep_leftGUI (b a : Nat) (s : State) : (shiftStep b a s).leftGUI = s.leftGUI := by
  rw [shiftStep_frame]

theorem shiftStep_x68kSerMouse (b a : Nat) (s : State) :
    (shiftStep b a s).x68kSerMouse = s.x68kSerMouse := by
  rw [shiftStep_frame]

theorem leftGUIStep_SHIFTED (b a : Nat) (s : State) : (leftGUIStep b a s).SHIFTED = s.SHIFTED := by
  rw [leftGUIStep_frame]

theorem leftGUIStep_x68kSerMouse (b a : Nat) (s : State) :
    (leftGUIStep b a s).x68kSerMouse = s.x68kSerMouse := by
  rw [leftGUIStep_frame]

theorem shiftStep_SHIFTED (before after k : Nat) (s : State) :
    (shiftStep (bit before k) (bit after k) s).SHIFTED =
      if bit before k ≠ bit after k then decide (bit after k = 1) else s.SHIFTED := by
  unfold shiftStep
  rcases bit_eq_zero_or_one after k with h | h <;>
    by_cases hc : bit before k = bit after k <;> simp_all [State.write_eq]

theorem leftGUIStep_leftGUI (b a : Nat) (s : State) :
    (leftGUIStep b a s).leftGUI = if b ≠ a then a else s.leftGUI := by
  unfold leftGUIStep
  split_ifs <;> rfl

/-- The value of `SHIFTED` after `OnControlKeysChanged`. -/
theorem OnControlKeysChanged_SHIFTED (s : State) (before after : Nat) :
    (OnControlKeysChanged s before after).SHIFTED =
      if bit before 5 ≠ bit after 5 then decide (bit after 5 = 1)
      else if bit before 1 ≠ bit after 1 then decide (bit after 1 = 1)
      else s.SHIFTED := by
  rw [OnControlKeysChanged_eq, modifierStep_SHIFTED, shiftStep_SHIFTED, modifierStep_SHIFTED,
    leftGUIStep_SHIFTED, modifierStep_SHIFTED, shiftStep_SHIFTED, modifierStep_SHIFTED]

/-- The value of `leftGUI` after `OnControlKeysChanged`. -/
theorem OnControlKeysChanged_leftGUI (s : State) (before after : Nat) :
    (OnControlKeysChanged s before after).leftGUI =
      if bit before 3 ≠ bit after 3 then bit after 3 else s.leftGUI := by
  rw [OnControlKeysChanged_eq, modifierStep_leftGUI, shiftStep_leftGUI, modifierStep_leftGUI,
    leftGUIStep_leftGUI, modifierStep_leftGUI, shiftStep_leftGUI, modifierStep_leftGUI]

/-- The mouse stream is untouched by `OnControlKeysChanged`. -/
theorem OnControlKeysChanged_x68kSerMouse (s : State) (before after : Nat) :
    (OnControlKeysChanged s before after).x68kSerMouse = s.x68kSerMouse := by
  rw [OnControlKeysChanged_eq, modifierStep_x68kSerMouse, shiftStep_x68kSerMouse,
    modifierStep_x68kSerMouse, leftGUIStep_x68kSerMouse, modifierStep_x68kSerMouse,
    shiftStep_x68kSerMouse, modifierStep_x68kSerMouse]

/-- C8: for every pair of modifier bitmasks, `OnControlKeysChanged` appends to
the keyboard stream exactly one byte per changed bit among Left-Ctrl,
Left-Shift, Left-Alt, Right-Ctrl, Right-Shift, Right-Alt (bits 0, 1, 2, 4, 5,
6), in that order, each the modifier's scancode (`0x71`, `0x70`, `0x56`,
`0x73`, `0x70`, `0x60`) with bit 7 clear when the bit is set in `after` and
bit 7 set when it is clear in `after`; the Left-GUI and Right-GUI bits (3 and
7) contribute no byte, so a change confined to them writes nothing; the mouse
stream is never written. -/
theorem C8_modifier_bytes (s : State) (before after : Nat) :
    (OnControlKeysChanged s before after).Serial =
      s.Serial ++
        (modifierByte before after 0 0x71 ++ modifierByte before after 1 0x70 ++
         modifierByte before after 2 0x56 ++ modifierByte before after 4 0x73 ++
         modifierByte before after 5 0x70 ++ modifierByte before after 6 0x60) ∧
    (OnControlKeysChanged s before after).x68kSerMouse = s.x68kSerMouse ∧
    ((∀ k ∈ [0, 1, 2, 4, 5, 6], bit before k = bit after k) →
      (OnControlKeysChanged s before after).Serial = s.Serial) := by
  refine ⟨OnControlKeysChanged_Serial s before after,
    OnControlKeysChanged_x68kSerMouse s before after, ?_⟩
  intro h
  rw [OnControlKeysChanged_Serial]
  simp only [List.mem_cons, List.mem_nil_iff, or_false, forall_eq_or_imp, forall_eq] at h
  obtain ⟨h0, h1, h2, h4, h5, h6⟩ := h
  simp [modifierBytes, modifierByte, h0, h1, h2, h4, h5, h6]

/-- C8, witness: from no modifier to all six non-GUI modifiers the six press
bytes are written in order; releasing them all writes the six release bytes;
a change of both GUI bits alone writes nothing. -/
theorem C8_modifier_bytes_witness :
    (OnControlKeysChanged State.init 0x00 0x77).Serial = [0x71, 0x70, 0x56, 0x73, 0x70, 0x60] ∧
    (OnControlKeysChanged State.init 0x77 0x00).Serial = [0xF1, 0xF0, 0xD6, 0xF3, 0xF0, 0xE0] ∧
    (OnControlKeysChanged State.init 0x00 0x88).Serial = [] :=
  ⟨(C8_modifier_bytes State.init 0x00 0x77).1, (C8_modifier_bytes State.init 0x77 0x00).1,
   (C8_modifier_bytes State.init 0x00 0x88).2.2 (by decide)⟩

/-! ## C9 -/

/-- C9: the code does not keep `SHIFTED` true while a physical Shift is held.
Press Left-Shift (`0x00 → 0x02`), press Right-Shift (`0x02 → 0x22`), release
Left-Shift (`0x22 → 0x20`): in the last report a Shift bit changes and
Right-Shift is still set in `after`, yet `SHIFTED` is false and the bytes
written are `0x70, 0x70, 0xF0`. With Right-Shift still held, key `0x23` (a key
of `unshifted_keys`) then takes the branch for "shift not held on the physical
keyboard" and writes the plain `0x07` instead of `0xF0, 0x0D, 0x70`, and
releasing Right-Shift (`0x20 → 0x00`) writes a second, unmatched `0xF0`. -/
theorem C9_shift_cleared_while_right_shift_held :
    bit 0x22 1 ≠ bit 0x20 1 ∧ bit 0x20 5 = 1 ∧
    OnControlKeysChanged (OnControlKeysChanged (OnControlKeysChanged State.init 0x00 0x02)
        0x02 0x22) 0x22 0x20 =
      { State.init with SHIFTED := false, Serial := [0x70, 0x70, 0xF0] } ∧
    ¬ ((OnControlKeysChanged (OnControlKeysChanged (OnControlKeysChanged State.init 0x00 0x02)
        0x02 0x22) 0x22 0x20).SHIFTED = true ↔ (bit 0x20 1 = 1 ∨ bit 0x20 5 = 1)) ∧
    OnKeyDown { State.init with SHIFTED := false, Serial := [0x70, 0x70, 0xF0] } 0x20 0x23 =
      some { State.init with SHIFTED := false, Serial := [0x70, 0x70, 0xF0, 0x07] } ∧
    OnKeyDown { State.init with SHIFTED := true, Serial := [0x70, 0x70] } 0x20 0x23 =
      some { State.init with SHIFTED := true, Serial := [0x70, 0x70, 0xF0, 0x0D, 0x70] } ∧
    OnControlKeysChanged { State.init with SHIFTED := false, Serial := [0x70, 0x70, 0xF0, 0x07] }
        0x20 0x00 =
      { State.init with SHIFTED := false, Serial := [0x70, 0x70, 0xF0, 0x07, 0xF0] } := by
  decide

/-! ## C10 -/

/-- C10: for every pair of bitmasks, if the Left-GUI bit (bit 3) differs,
`OnControlKeysChanged` leaves `leftGUI` equal to the Left-GUI bit of `after`,
otherwise `leftGUI` is unchanged; and when the bitmasks differ only in the
Right-GUI bit (bit 7), the state is returned unchanged: nothing is written and
neither `leftGUI` nor `SHIFTED` changes. -/
theorem C10_gui_bits (s : State) (before after : Nat) :
    (bit before 3 ≠ bit after 3 →
      (OnControlKeysChanged s before after).leftGUI = bit after 3) ∧
    (bit before 3 = bit after 3 →
      (OnControlKeysChanged s before after).leftGUI = s.leftGUI) ∧
    ((∀ k, k < 7 → bit before k = bit after k) → bit before 7 ≠ bit after 7 →
      OnControlKeysChanged s before after = s) := by
  refine ⟨?_, ?_, ?_⟩
  · intro h
    rw [OnControlKeysChanged_leftGUI, if_pos h]
  · intro h
    rw [OnControlKeysChanged_leftGUI, if_neg (not_not.mpr h)]
  · intro h _
    rw [OnControlKeysChanged_eq]
    simp [modifierStep, shiftStep, leftGUIStep, h 0 (by decide), h 1 (by decide),
      h 2 (by decide), h 3 (by decide), h 4 (by decide), h 5 (by decide), h 6 (by decide)]

/-- C10, witness: pressing Left-GUI (`0x00 → 0x08`) sets `leftGUI` to 1 and
releasing it (`0x08 → 0x00`) sets it back to 0; pressing Right-GUI alone
(`0x00 → 0x80`) changes nothing. -/
theorem C10_gui_bits_witness :
    (OnControlKeysChanged State.init 0x00 0x08).leftGUI = 1 ∧
    (OnControlKeysChanged { State.init with leftGUI := 1 } 0x08 0x00).leftGUI = 0 ∧
    OnControlKeysChanged { State.init with SHIFTED := true } 0x00 0x80 =
      { State.init with SHIFTED := true } :=
  ⟨(C10_gui_bits State.init 0x00 0x08).1 (by decide),
   (C10_gui_bits { State.init with leftGUI := 1 } 0x08 0x00).1 (by decide),
   (C10_gui_bits { State.init with SHIFTED := true } 0x00 0x80).2.2 (by decide) (by decide)⟩

/-! ## C11 -/

/-- When the three uninitialised flags happen to start at 0, the first packet
byte is the one the specification gives. -/
theorem mouse_packet_byte0_of_zero (s : State) (hl : s.mouse_left ≤ 1) (hr : s.mouse_right ≤ 1) :
    (mouse_packet ⟨0, 0, 0⟩ s)[0]? =
      some (specByte0 s.mouse_dx s.mouse_dy s.mouse_left s.mouse_right) := by
  have hl' : s.mouse_left = 0 ∨ s.mouse_left = 1 := by omega
  have hr' : s.mouse_right = 0 ∨ s.mouse_right = 1 := by omega
  simp only [mouse_packet, specByte0, List.getElem?_cons_zero, Option.some.injEq]
  rcases hl' with h1 | h1 <;> rcases hr' with h2 | h2 <;> rw [h1, h2] <;>
    split_ifs <;> rfl

/-- C11: the code does not produce the byte of the claim. With accumulated
`dx = 300`, `dy = -5`, left button down, right button up, the sequence `0x41`,
`0x40` writes a packet whose first byte depends on what the uninitialised
locals hold: `0x11`, the value of the claim, if all three start at 0, but
`0x31` if `x_ovn` starts at 1 (its condition `dx < -128` is false, so it is
never assigned). -/
theorem C11_byte0_uninitialised_flags :
    specByte0 300 (-5) 1 0 = 0x11 ∧
    (rxStep ⟨0, 0, 0⟩ (rxStep ⟨0, 0, 0⟩
        { State.init with mouse_dx := 300, mouse_dy := -5, mouse_left := 1, mouse_right := 0 }
        0x41) 0x40).x68kSerMouse = [0x11, 0x2C, 0xFB] ∧
    (rxStep ⟨0, 1, 0⟩ (rxStep ⟨0, 0, 0⟩
        { State.init with mouse_dx := 300, mouse_dy := -5, mouse_left := 1, mouse_right := 0 }
        0x41) 0x40).x68kSerMouse = [0x31, 0x2C, 0xFB] := by
  decide

/-! ## C12 -/

theorem rxStep_0x41 (u : Uninit) (s : State) :
    rxStep u s 0x41 = { s with last_rxbyte := s.rxbyte, rxbyte := 0x41 } := by
  simp [rxStep]

theorem rxStep_trigger (u : Uninit) (s : State) (h : s.rxbyte = 0x41) :
    rxStep u s 0x40 = mouseFrame u { s with last_rxbyte := 0x41, rxbyte := 0x40 } := by
  have e : (0x40 &&& 0xF0 : Nat) = 0x40 := by decide
  simp [rxStep, h, e]

/-- C12: for every accumulated `dx`, `dy`, the bytes `0x41` then `0x40` make the
decoder append exactly three bytes to the mouse stream and none to the
keyboard stream; the second byte is `dx mod 256` and the third `dy mod 256`
(the low byte of the two's-complement value, not clamped); afterwards
`mouse_dx` and `mouse_dy` are 0 and `mouse_left`, `mouse_right` are as before. -/
theorem C12_mouse_frame (u1 u2 : Uninit) (s : State) :
    ∃ b0,
      (rxStep u2 (rxStep u1 s 0x41) 0x40).x68kSerMouse =
        s.x68kSerMouse ++ [b0, (s.mouse_dx % 256).toNat, (s.mouse_dy % 256).toNat] ∧
      (rxStep u2 (rxStep u1 s 0x41) 0x40).Serial = s.Serial ∧
      (rxStep u2 (rxStep u1 s 0x41) 0x40).mouse_dx = 0 ∧
      (rxStep u2 (rxStep u1 s 0x41) 0x40).mouse_dy = 0 ∧
      (rxStep u2 (rxStep u1 s 0x41) 0x40).mouse_left = s.mouse_left ∧
      (rxStep u2 (rxStep u1 s 0x41) 0x40).mouse_right = s.mouse_right := by
  rw [rxStep_0x41, rxStep_trigger _ _ rfl]
  exact ⟨_, rfl, rfl, rfl, rfl, rfl, rfl⟩

/-- C12, witness: `dx = 300`, `dy = -5` gives the bytes `0x2C` and `0xFB`. -/
theorem C12_mouse_frame_witness :
    ∃ b0,
      (rxStep ⟨7, 7, 7⟩ (rxStep ⟨7, 7, 7⟩
          { State.init with mouse_dx := 300, mouse_dy := -5, mouse_left := 1 } 0x41)
        0x40).x68kSerMouse = [b0, 0x2C, 0xFB] := by
  obtain ⟨b0, h, _⟩ := C12_mouse_frame ⟨7, 7, 7⟩ ⟨7, 7, 7⟩
    { State.init with mouse_dx := 300, mouse_dy := -5, mouse_left := 1 }
  exact ⟨b0, h⟩

/-! ## C13 -/

/-- Every byte but a `0x40` that follows a `0x41`: the byte is remembered and
only `0x48` / `0x49` change anything else, namely `KEY_ENABLE`. -/
theorem rxStep_of_not_trigger (u : Uninit) (s : State) (b : Nat)
    (h : ¬ (b = 0x40 ∧ s.rxbyte = 0x41)) :
    rxStep u s b =
      { s with last_rxbyte := s.rxbyte, rxbyte := b,
               KEY_ENABLE := if b = 0x48 then false else if b = 0x49 then true
                             else s.KEY_ENABLE } := by
  have e48 : (0x48 &&& 0xF0 : Nat) = 0x40 := by decide
  have e49 : (0x49 &&& 0xF0 : Nat) = 0x40 := by decide
  by_cases h48 : b = 0x48
  · subst h48; simp [rxStep, e48]
  by_cases h49 : b = 0x49
  · subst h49; simp [rxStep, e49]
  simp only [rxStep, resetRepeat, h48, h49, if_false, ite_self]
  split_ifs <;> rfl

/-- A `0x40` that follows a `0x41` runs the mouse frame block. -/
theorem rxStep_of_trigger (u : Uninit) (s : State) (b : Nat)
    (h : b = 0x40 ∧ s.rxbyte = 0x41) :
    rxStep u s b = mouseFrame u { s with last_rxbyte := 0x41, rxbyte := 0x40 } := by
  obtain ⟨rfl, h2⟩ := h
  exact rxStep_trigger u s h2

theorem mouseFrame_x68kSerMouse (u : Uninit) (s : State) :
    ∃ p, p.length = 3 ∧ (mouseFrame u s).x68kSerMouse = s.x68kSerMouse ++ p :=
  ⟨mouse_packet u s, rfl, rfl⟩

/-- C13: for every decoder state and every received byte `b`, processing `b`
changes the mouse stream if and only if `b = 0x40` and the byte received
immediately before it (`rxbyte` on entry) was `0x41`, and then exactly one
three-byte packet is appended; after processing, the remembered byte `rxbyte`
is `b`. In particular the sequence `0x41`, `0x40`, `0x40` appends exactly one
packet from any state, and a `0x40` that is the first byte ever received
appends none. -/
theorem C13_mouse_trigger (u : Uninit) (s : State) (b : Nat) :
    ((rxStep u s b).x68kSerMouse ≠ s.x68kSerMouse ↔ (b = 0x40 ∧ s.rxbyte = 0x41)) ∧
    ((b = 0x40 ∧ s.rxbyte = 0x41) →
      ∃ p, p.length = 3 ∧ (rxStep u s b).x68kSerMouse = s.x68kSerMouse ++ p) ∧
    (rxStep u s b).rxbyte = b ∧
    (∀ u2 u3, ∃ p, p.length = 3 ∧
      (rxStep u3 (rxStep u2 (rxStep u s 0x41) 0x40) 0x40).x68kSerMouse =
        s.x68kSerMouse ++ p) ∧
    (rxStep u State.init 0x40).x68kSerMouse = State.init.x68kSerMouse := by
  refine ⟨?_, ?_, ?_, ?_, ?_⟩
  · by_cases h : b = 0x40 ∧ s.rxbyte = 0x41
    · rw [rxStep_of_trigger u s b h]
      simp [mouseFrame, mouse_packet, h]
    · rw [rxStep_of_not_trigger u s b h]
      simp [h]
  · intro h
    rw [rxStep_of_trigger u s b h]
    exact mouseFrame_x68kSerMouse _ _
  · by_cases h : b = 0x40 ∧ s.rxbyte = 0x41
    · rw [rxStep_of_trigger u s b h]
      exact h.1.symm
    · rw [rxStep_of_not_trigger u s b h]
  · intro u2 u3
    rw [rxStep_0x41 u s, rxStep_trigger u2 _ rfl,
      rxStep_of_not_trigger u3 _ 0x40 (by simp [mouseFrame])]
    exact ⟨mouse_packet u2 _, rfl, rfl⟩
  · rw [rxStep_of_not_trigger u _ 0x40 (by simp [State.init])]

/-! ## C14 -/

theorem rxStep_KEY_ENABLE (u : Uninit) (s : State) (b : Nat) :
    (rxStep u s b).KEY_ENABLE =
      if b = 0x48 then false else if b = 0x49 then true else s.KEY_ENABLE := by
  by_cases h : b = 0x40 ∧ s.rxbyte = 0x41
  · rw [rxStep_of_trigger u s b h]
    simp [mouseFrame, h.1]
  · rw [rxStep_of_not_trigger u s b h]

/-- C14: for every decoder state and every received byte `b`, after processing
`b` `KEY_ENABLE` is false if `b = 0x48`, true if `b = 0x49`, and unchanged for
every other byte; hence `0x48` twice in a row leaves it false and `0x49` twice
leaves it true, whatever it was before. -/
theorem C14_key_enable (u : Uninit) (s : State) (b : Nat) :
    (rxStep u s b).KEY_ENABLE =
      (if b = 0x48 then false else if b = 0x49 then true else s.KEY_ENABLE) ∧
    (∀ u2, (rxStep u2 (rxStep u s 0x48) 0x48).KEY_ENABLE = false) ∧
    (∀ u2, (rxStep u2 (rxStep u s 0x49) 0x49).KEY_ENABLE = true) := by
  refine ⟨rxStep_KEY_ENABLE u s b, ?_, ?_⟩
  · intro u2
    rw [rxStep_KEY_ENABLE]
    rfl
  · intro u2
    rw [rxStep_KEY_ENABLE]
    rfl

/-! ## C15 -/

/-- C15: for every received byte whose high nibble is not `0x4` (auto-repeat is
compiled out), processing the byte writes nothing to either stream and leaves
`KEY_ENABLE`, `SHIFTED`, `leftGUI`, `mouse_dx`, `mouse_dy`, `mouse_left` and
`mouse_right` unchanged: the state changes only in the remembered bytes,
`rxbyte` becoming the byte and `last_rxbyte` the previous `rxbyte`. -/
theorem C15_other_bytes_ignored (u : Uninit) (s : State) (b : Nat) (h : b &&& 0xF0 ≠ 0x40) :
    rxStep u s b = { s with last_rxbyte := s.rxbyte, rxbyte := b } := by
  have h40 : b ≠ 0x40 := by rintro rfl; exact h (by decide)
  have h48 : b ≠ 0x48 := by rintro rfl; exact h (by decide)
  have h49 : b ≠ 0x49 := by rintro rfl; exact h (by decide)
  rw [rxStep_of_not_trigger u s b (fun hh => h40 hh.1)]
  simp [h48, h49]

/-- C15, witness: the handshake byte `0xFD`, the goodbye byte `0xFF`, an LED
byte `0x80` and a byte of an unlisted nibble `0x00` only update the remembered
bytes. -/
theorem C15_other_bytes_ignored_witness :
    rxStep ⟨1, 1, 1⟩ { State.init with KEY_ENABLE := true, rxbyte := 0x41 } 0xFD =
      { State.init with KEY_ENABLE := true, last_rxbyte := 0x41, rxbyte := 0xFD } ∧
    rxStep ⟨1, 1, 1⟩ State.init 0xFF = { State.init with rxbyte := 0xFF } ∧
    rxStep ⟨1, 1, 1⟩ State.init 0x80 = { State.init with rxbyte := 0x80 } ∧
    rxStep ⟨1, 1, 1⟩ State.init 0x00 = { State.init with rxbyte := 0x00 } :=
  ⟨C15_other_bytes_ignored _ _ 0xFD (by decide), C15_other_bytes_ignored _ _ 0xFF (by decide),
   C15_other_bytes_ignored _ _ 0x80 (by decide), C15_other_bytes_ignored _ _ 0x00 (by decide)⟩

/-- C13, witness: from the initial state `0x41`, `0x40`, `0x40` appends one
packet (three bytes), and `0x40` alone appends nothing. -/
theorem C13_mouse_trigger_witness :
    (∃ p, p.length = 3 ∧
      (rxStep ⟨0, 0, 0⟩ (rxStep ⟨0, 0, 0⟩ (rxStep ⟨0, 0, 0⟩ State.init 0x41) 0x40)
        0x40).x68kSerMouse = [] ++ p) ∧
    (rxStep ⟨0, 0, 0⟩ State.init 0x40).x68kSerMouse = [] :=
  ⟨(C13_mouse_trigger ⟨0, 0, 0⟩ State.init 0x41).2.2.2.1 ⟨0, 0, 0⟩ ⟨0, 0, 0⟩,
   (C13_mouse_trigger ⟨0, 0, 0⟩ State.init 0x41).2.2.2.2⟩

/-! ## C16 -/

/-- Truncating division by 3 is the sign times the quotient of the magnitude. -/
theorem tdiv_three (x : Int) : Int.tdiv x 3 = Int.sign x * ((x.natAbs / 3 : Nat) : Int) := by
  rcases Int.eq_nat_or_neg x with ⟨n, rfl | rfl⟩
  · rcases Nat.eq_zero_or_pos n with rfl | hn
    · rfl
    · have hs : Int.sign (n : Int) = 1 := Int.sign_eq_one_of_pos (by exact_mod_cast hn)
      rw [hs, one_mul, Int.natAbs_ofNat]
      rfl
  · rcases Nat.eq_zero_or_pos n with rfl | hn
    · rfl
    · have hs : Int.sign (-(n : Int)) = -1 :=
        Int.sign_eq_neg_one_of_neg (by have : (0 : Int) < n := by exact_mod_cast hn
                                       omega)
      rw [hs, Int.neg_tdiv, Int.natAbs_neg, Int.natAbs_ofNat, neg_one_mul]
      rfl

theorem wrap16_of_range (x : Int) (h1 : -32768 ≤ x) (h2 : x ≤ 32767) : wrap16 x = x := by
  unfold wrap16; omega

/-- C16: for every mouse move report, `OnMouseMove` adds `dX / 3` and `dY / 3`,
each truncated toward zero (sign times the quotient of the magnitude by
`MOUSE_DIVIDER = 3`), to `mouse_dx` and `mouse_dy` as signed 16-bit values
(the plain sum whenever it fits in 16 bits), and changes nothing else, so the
button state is unchanged; a move with `|dX| ≤ 2` and `|dY| ≤ 2` leaves the
state unchanged, and `dX = -4` adds `-1`. -/
theorem C16_mouse_move (s : State) (mi : MOUSEINFO)
    (hx : -32768 ≤ s.mouse_dx ∧ s.mouse_dx ≤ 32767)
    (hy : -32768 ≤ s.mouse_dy ∧ s.mouse_dy ≤ 32767) :
    OnMouseMove s mi =
      { s with
        mouse_dx := wrap16 (s.mouse_dx + Int.sign mi.dX * ((mi.dX.natAbs / 3 : Nat) : Int)),
        mouse_dy := wrap16 (s.mouse_dy + Int.sign mi.dY * ((mi.dY.natAbs / 3 : Nat) : Int)) } ∧
    (-32768 ≤ s.mouse_dx + Int.sign mi.dX * ((mi.dX.natAbs / 3 : Nat) : Int) →
      s.mouse_dx + Int.sign mi.dX * ((mi.dX.natAbs / 3 : Nat) : Int) ≤ 32767 →
      (OnMouseMove s mi).mouse_dx =
        s.mouse_dx + Int.sign mi.dX * ((mi.dX.natAbs / 3 : Nat) : Int)) ∧
    (-32768 ≤ s.mouse_dy + Int.sign mi.dY * ((mi.dY.natAbs / 3 : Nat) : Int) →
      s.mouse_dy + Int.sign mi.dY * ((mi.dY.natAbs / 3 : Nat) : Int) ≤ 32767 →
      (OnMouseMove s mi).mouse_dy =
        s.mouse_dy + Int.sign mi.dY * ((mi.dY.natAbs / 3 : Nat) : Int)) ∧
    (OnMouseMove s mi).mouse_left = s.mouse_left ∧
    (OnMouseMove s mi).mouse_right = s.mouse_right ∧
    (mi.dX.natAbs ≤ 2 → mi.dY.natAbs ≤ 2 → OnMouseMove s mi = s) ∧
    (mi.dX = -4 → -32768 < s.mouse_dx → (OnMouseMove s mi).mouse_dx = s.mouse_dx - 1) := by
  have hdef : OnMouseMove s mi =
      { s with
        mouse_dx := wrap16 (s.mouse_dx + Int.sign mi.dX * ((mi.dX.natAbs / 3 : Nat) : Int)),
        mouse_dy := wrap16 (s.mouse_dy + Int.sign mi.dY * ((mi.dY.natAbs / 3 : Nat) : Int)) } := by
    simp only [OnMouseMove, MOUSE_DIVIDER, tdiv_three]
  refine ⟨hdef, ?_, ?_, ?_, ?_, ?_, ?_⟩
  · intro h1 h2
    rw [hdef]
    exact wrap16_of_range _ h1 h2
  · intro h1 h2
    rw [hdef]
    exact wrap16_of_range _ h1 h2
  · rw [hdef]
  · rw [hdef]
  · intro h1 h2
    have q1 : mi.dX.natAbs / 3 = 0 := by omega
    have q2 : mi.dY.natAbs / 3 = 0 := by omega
    rw [hdef, q1, q2]
    simp [wrap16_of_range _ hx.1 hx.2, wrap16_of_range _ hy.1 hy.2]
  · intro h1 h2
    rw [hdef, h1]
    show wrap16 (s.mouse_dx + Int.sign (-4) * ((Int.natAbs (-4) / 3 : Nat) : Int)) = _
    have e : Int.sign (-4) * ((Int.natAbs (-4) / 3 : Nat) : Int) = -1 := by decide
    rw [e]
    exact wrap16_of_range _ (by omega) (by omega)

/-- C16, witness: from a zeroed accumulator the move `(-4, 2)` leaves
`mouse_dx = -1`, `mouse_dy = 0`; the move `(2, -2)` changes nothing. -/
theorem C16_mouse_move_witness :
    (OnMouseMove State.init ⟨-4, 2⟩).mouse_dx = -1 ∧
    (OnMouseMove State.init ⟨-4, 2⟩).mouse_dy = 0 ∧
    OnMouseMove State.init ⟨2, -2⟩ = State.init := by
  obtain ⟨_, _, hdy, _, _, hsmall, hneg⟩ :=
    C16_mouse_move State.init ⟨-4, 2⟩ (by decide) (by decide)
  exact ⟨hneg rfl (by decide), hdy (by decide) (by decide),
    (C16_mouse_move State.init ⟨2, -2⟩ (by decide) (by decide)).2.2.2.2.2.1
      (by decide) (by decide)⟩

/-! ## C17 -/

theorem altKeysFrom_frame (frame : Nat → Nat) (key : Nat) (s : State) (sh g : Bool)
    (rem i : Nat) :
    altKeysFrom frame key s rem i =
      ((altKeysFrom frame key (probe sh g) rem i).map State.Serial).map
        (fun l => { s with Serial := s.Serial ++ l }) := by
  induction rem generalizing i with
  | zero => simp [altKeysFrom, probe, State.init]
  | succ n ih =>
    simp only [altKeysFrom]
    cases altKeysUSB[i]? with
    | none => rfl
    | some k =>
      by_cases hk : key = k
      · simp only [hk, if_true]
        cases altKeyCodes[i]? with
        | none => rfl
        | some c => simp [State.write_eq, probe, State.init]
      · simp only [hk, if_false]
        exact ih (i + 1)

theorem probe_leftGUI_ne (sh : Bool) : (probe sh true).leftGUI ≠ 0 := by simp [probe]

theorem probe_leftGUI_eq (sh : Bool) : (probe sh false).leftGUI = 0 := by simp [probe]

/-- The handler `OnKeyDown` reads only `SHIFTED` and whether `leftGUI` is
nonzero, and only appends bytes to the keyboard stream. -/
theorem OnKeyDown_frame (s : State) (mod key : Nat) :
    OnKeyDown s mod key =
      (downBytes s.SHIFTED (decide (s.leftGUI ≠ 0)) key).map
        (fun l => { s with Serial := s.Serial ++ l }) := by
  unfold downBytes
  by_cases hG : s.leftGUI = 0
  · have hp := probe_leftGUI_eq s.SHIFTED
    have hps : (probe s.SHIFTED false).SHIFTED = s.SHIFTED := rfl
    simp only [hG, ne_eq, not_true_eq_false, decide_False]
    unfold OnKeyDown
    simp only [hG, hp, hps, ne_eq, not_true_eq_false, if_false]
    by_cases hk : key < sizeof keymapping
    · simp only [hk, if_true, doShiftOrUnshift_shifted_keys, doShiftOrUnshift_unshifted_keys]
      cases hS : s.SHIFTED <;>
        cases keymapping[key]? <;> cases shifted_keymapping[key]? <;>
          simp [State.write_eq, probe, State.init] <;> split_ifs <;>
            simp [State.write_eq, probe, State.init, hS, hG]
    · simp only [hk, if_false, Option.map_some', probe, State.init, List.append_nil]
      cases s
      simp_all
  · have hp := probe_leftGUI_ne s.SHIFTED
    simp only [hG, ne_eq, not_false_eq_true, decide_True]
    unfold OnKeyDown
    simp only [hG, hp, ne_eq, not_false_eq_true, if_true]
    exact altKeysFrom_frame _ _ _ _ _ _ _

/-- The handler `OnKeyUp` reads only `SHIFTED` and whether `leftGUI` is
nonzero, and only appends bytes to the keyboard stream. -/
theorem OnKeyUp_frame (s : State) (mod key : Nat) :
    OnKeyUp s mod key =
      (upBytes s.SHIFTED (decide (s.leftGUI ≠ 0)) key).map
        (fun l => { s with Serial := s.Serial ++ l }) := by
  unfold upBytes
  by_cases hG : s.leftGUI = 0
  · have hp := probe_leftGUI_eq s.SHIFTED
    have hps : (probe s.SHIFTED false).SHIFTED = s.SHIFTED := rfl
    simp only [hG, ne_eq, not_true_eq_false, decide_False]
    unfold OnKeyUp
    simp only [hG, hp, hps, ne_eq, not_true_eq_false, if_false]
    by_cases hk : key < sizeof keymapping
    · simp only [hk, if_true, doShiftOrUnshift_shifted_keys, doShiftOrUnshift_unshifted_keys]
      cases hS : s.SHIFTED <;>
        cases keymapping[key]? <;> cases shifted_keymapping[key]? <;>
          simp [State.write_eq, probe, State.init] <;> split_ifs <;>
            simp [State.write_eq, probe, State.init, hS, hG]
    · simp only [hk, if_false, Option.map_some', probe, State.init, List.append_nil]
      cases s
      simp_all
  · have hp := probe_leftGUI_ne s.SHIFTED
    simp only [hG, ne_eq, not_false_eq_true, decide_True]
    unfold OnKeyUp
    simp only [hG, hp, ne_eq, not_false_eq_true, if_true]
    exact altKeysFrom_frame _ _ _ _ _ _ _

/-- Keys at or past the end of `keymapping` write nothing in any mode: with the
alt layer inactive they fail the bounds guard, and with it active they are not
in `altKeysUSB`. -/
theorem bytes_of_large_key (sh g : Bool) (key : Nat) (h : 112 ≤ key) :
    downBytes sh g key = some [] ∧ upBytes sh g key = some [] := by
  have hk : ¬ key < sizeof keymapping := by rw [sizeof_keymapping]; omega
  cases g
  · simp [downBytes, upBytes, OnKeyDown, OnKeyUp, probe, hk, State.init]
  · have h1 : key ≠ 0x54 := by omega
    have h2 : key ≠ 0x55 := by omega
    have h3 : key ≠ 0x56 := by omega
    have h4 : key ≠ 0x3A := by omega
    have h5 : key ≠ 0x3B := by omega
    have h6 : key ≠ 0x3C := by omega
    have h7 : key ≠ 0x3D := by omega
    have h8 : key ≠ 0x3E := by omega
    simp [downBytes, upBytes, OnKeyDown, OnKeyUp, probe, State.init, sizeof, altKeysUSB,
      altKeysFrom, h1, h2, h3, h4, h5, h6, h7, h8]

set_option maxRecDepth 100000 in
set_option synthInstance.maxSize 4096 in
set_option synthInstance.maxHeartbeats 400000 in
/-- For each key of the table range and each mode, by evaluation: both handlers
return; the host-visible Shift key is in the state `SHIFTED` again after the
bytes of either handler; every release byte has bit 7 set; and the release
byte is the pressed scancode with bit 7 set. -/
theorem key_bytes_table :
    ∀ key, key < 112 → ∀ sh ∈ [false, true], ∀ g ∈ [false, true],
      (downBytes sh g key).isSome = true ∧ (upBytes sh g key).isSome = true ∧
      shiftAfter sh ((downBytes sh g key).getD []) = sh ∧
      shiftAfter sh ((upBytes sh g key).getD []) = sh ∧
      ((downBytes sh g key).getD [] = [] ↔ (upBytes sh g key).getD [] = []) ∧
      (∀ r ∈ (upBytes sh g key).getD [], 128 ≤ r) ∧
      ((downBytes sh g key).getD [] ≠ [] →
        (((downBytes sh g key).getD []).length = 1 ∨
          ((downBytes sh g key).getD []).length = 3) ∧
        (((downBytes sh g key).getD []).filter (fun b => !isShiftByte b)).length = 1 ∧
        (∀ p ∈ ((downBytes sh g key).getD []).filter (fun b => !isShiftByte b), p < 128) ∧
        (upBytes sh g key).getD [] =
          (((downBytes sh g key).getD []).filter (fun b => !isShiftByte b)).map
            (fun p => p ||| 0x80)) := by
  decide

/-- What the two key handlers write for any key in any mode. -/
theorem key_bytes (sh g : Bool) (key : Nat) :
    ∃ d u, downBytes sh g key = some d ∧ upBytes sh g key = some u ∧
      shiftAfter sh d = sh ∧ shiftAfter sh u = sh ∧ (d = [] ↔ u = []) ∧
      (∀ r ∈ u, 128 ≤ r) ∧
      (d ≠ [] →
        (d.length = 1 ∨ d.length = 3) ∧
        (d.filter (fun b => !isShiftByte b)).length = 1 ∧
        (∀ p ∈ d.filter (fun b => !isShiftByte b), p < 128) ∧
        u = (d.filter (fun b => !isShiftByte b)).map (fun p => p ||| 0x80)) := by
  by_cases hk : key < 112
  · have hsh : sh ∈ [false, true] := by cases sh <;> simp
    have hg : g ∈ [false, true] := by cases g <;> simp
    have h := key_bytes_table key hk sh hsh g hg
    obtain ⟨h1, h2, h3⟩ := h
    obtain ⟨d, hd⟩ := Option.isSome_iff_exists.mp h1
    obtain ⟨u, hu⟩ := Option.isSome_iff_exists.mp h2
    rw [hd, hu] at h3
    exact ⟨d, u, hd, hu, h3⟩
  · obtain ⟨hd, hu⟩ := bytes_of_large_key sh g key (Nat.not_lt.mp hk)
    refine ⟨[], [], hd, hu, rfl, rfl, Iff.rfl, ?_, ?_⟩
    · intro r hr; cases hr
    · intro h; exact absurd rfl h

theorem hostShift_append (l d : List Nat) : hostShift (l ++ d) = shiftAfter (hostShift l) d := by
  simp [hostShift, shiftAfter, List.foldl_append]

/-! ## C18 -/

theorem modifierStep_hostShift (scan b a : Nat) (s : State)
    (hp : PRESS scan ≠ 0x70 ∧ PRESS scan ≠ 0xF0) (hr : RELEASE scan ≠ 0x70 ∧ RELEASE scan ≠ 0xF0)
    (h : hostShift s.Serial = s.SHIFTED) :
    hostShift (modifierStep scan b a s).Serial = (modifierStep scan b a s).SHIFTED := by
  unfold modifierStep
  split_ifs <;>
    simp [State.write_eq, hostShift_append, shiftAfter, hp.1, hp.2, hr.1, hr.2, h]

theorem shiftStep_hostShift (b a : Nat) (s : State) (h : hostShift s.Serial = s.SHIFTED) :
    hostShift (shiftStep b a s).Serial = (shiftStep b a s).SHIFTED := by
  have e1 : RELEASE SHIFT_SCAN = 0xF0 := by decide
  have e2 : PRESS SHIFT_SCAN = 0x70 := by decide
  unfold shiftStep
  split_ifs <;> simp [State.write_eq, hostShift_append, shiftAfter, e1, e2, h]

theorem leftGUIStep_hostShift (b a : Nat) (s : State) (h : hostShift s.Serial = s.SHIFTED) :
    hostShift (leftGUIStep b a s).Serial = (leftGUIStep b a s).SHIFTED := by
  rw [leftGUIStep_Serial, leftGUIStep_SHIFTED]
  exact h

/-- C18: if the host-visible Shift state of the keyboard stream equals
`SHIFTED` before `OnKeyDown`, `OnKeyUp` or `OnControlKeysChanged`, for any
arguments and any alt-layer state, then the handler returns and the two are
equal again in the state it leaves, after all its bytes are written; and no
entry of `keymapping`, `shifted_keymapping`, `shifted_keys`, `unshifted_keys`
or `altKeyCodes` is `0x70`. -/
theorem C18_shift_state_consistent (s : State) (h : hostShift s.Serial = s.SHIFTED) :
    (∀ mod key, ∃ s1, OnKeyDown s mod key = some s1 ∧ hostShift s1.Serial = s1.SHIFTED) ∧
    (∀ mod key, ∃ s1, OnKeyUp s mod key = some s1 ∧ hostShift s1.Serial = s1.SHIFTED) ∧
    (∀ before after,
      hostShift (OnControlKeysChanged s before after).Serial =
        (OnControlKeysChanged s before after).SHIFTED) ∧
    (0x70 ∉ keymapping ∧ 0x70 ∉ shifted_keymapping ∧ 0x70 ∉ shifted_keys ∧
      0x70 ∉ unshifted_keys ∧ 0x70 ∉ altKeyCodes) := by
  refine ⟨?_, ?_, ?_, by decide⟩
  · intro mod key
    obtain ⟨d, u, hd, _, h3, _⟩ := key_bytes s.SHIFTED (decide (s.leftGUI ≠ 0)) key
    refine ⟨{ s with Serial := s.Serial ++ d }, ?_, ?_⟩
    · rw [OnKeyDown_frame, hd]; rfl
    · show hostShift (s.Serial ++ d) = s.SHIFTED
      rw [hostShift_append, h, h3]
  · intro mod key
    obtain ⟨d, u, _, hu, _, h4, _⟩ := key_bytes s.SHIFTED (decide (s.leftGUI ≠ 0)) key
    refine ⟨{ s with Serial := s.Serial ++ u }, ?_, ?_⟩
    · rw [OnKeyUp_frame, hu]; rfl
    · show hostShift (s.Serial ++ u) = s.SHIFTED
      rw [hostShift_append, h, h4]
  · intro before after
    rw [OnControlKeysChanged_eq]
    apply modifierStep_hostShift _ _ _ _ (by decide) (by decide)
    apply shiftStep_hostShift
    apply modifierStep_hostShift _ _ _ _ (by decide) (by decide)
    apply leftGUIStep_hostShift
    apply modifierStep_hostShift _ _ _ _ (by decide) (by decide)
    apply shiftStep_hostShift
    apply modifierStep_hostShift _ _ _ _ (by decide) (by decide)
    exact h

/-- C18, witness: from the initial state (Shift released, `SHIFTED` false) the
force-shift key `0x32` writes `0x70, 0x04, 0xF0` and leaves both released;
pressing Left-Shift leaves both pressed. -/
theorem C18_shift_state_consistent_witness :
    (∃ s1, OnKeyDown State.init 0 0x32 = some s1 ∧ hostShift s1.Serial = s1.SHIFTED) ∧
    hostShift (OnControlKeysChanged State.init 0x00 0x02).Serial =
      (OnControlKeysChanged State.init 0x00 0x02).SHIFTED :=
  ⟨(C18_shift_state_consistent State.init rfl).1 0 0x32,
   (C18_shift_state_consistent State.init rfl).2.2.1 0x00 0x02⟩

/-! ## C19 -/

/-- On a list of odd length the search of `doShiftOrUnshift` can read past the
end: a match at the last index reads `list[i + 1]` outside the array. -/
theorem doShiftOrUnshift_odd_length : doShiftOrUnshift [1, 2, 3] 3 3 = none := by
  decide

/-- C19: every table read of the key handlers is in bounds for the UK layout.
`keymapping` and `shifted_keymapping` both have length 112, so
`shifted_keymapping[key]` is defined whenever `key < sizeof(keymapping)`;
`altKeysUSB` and `altKeyCodes` both have length 8, so `altKeyCodes[i]` is
defined for every index below `sizeof(altKeysUSB)`; `shifted_keys` and
`unshifted_keys` have even length, and `doShiftOrUnshift` on either returns
without reading outside the list for every key; hence `OnKeyDown` and
`OnKeyUp` return a state, never an out-of-bounds read, for every state and
every key. -/
theorem C19_reads_in_bounds :
    keymapping.length = 112 ∧ shifted_keymapping.length = 112 ∧
    altKeysUSB.length = 8 ∧ altKeyCodes.length = 8 ∧
    shifted_keys.length % 2 = 0 ∧ unshifted_keys.length % 2 = 0 ∧
    (∀ key, key < sizeof keymapping → (shifted_keymapping[key]?).isSome = true) ∧
    (∀ i, i < sizeof altKeysUSB → (altKeyCodes[i]?).isSome = true) ∧
    (∀ key, (doShiftOrUnshift shifted_keys (sizeof shifted_keys) key).isSome = true ∧
      (doShiftOrUnshift unshifted_keys (sizeof unshifted_keys) key).isSome = true) ∧
    (∀ (s : State) (mod key : Nat),
      (OnKeyDown s mod key).isSome = true ∧ (OnKeyUp s mod key).isSome = true) := by
  refine ⟨by decide, by decide, by decide, by decide, by decide, by decide, ?_, ?_, ?_, ?_⟩
  · intro key hk
    have hk2 : key < shifted_keymapping.length := by
      rw [shifted_keymapping_length]; exact hk
    rw [List.getElem?_eq_getElem hk2]; rfl
  · intro i hi
    have hi2 : i < altKeyCodes.length := hi
    rw [List.getElem?_eq_getElem hi2]; rfl
  · intro key
    rw [doShiftOrUnshift_shifted_keys, doShiftOrUnshift_unshifted_keys]
    exact ⟨rfl, rfl⟩
  · intro s mod key
    obtain ⟨d, u, hd, hu, _⟩ := key_bytes s.SHIFTED (decide (s.leftGUI ≠ 0)) key
    rw [OnKeyDown_frame, OnKeyUp_frame, hd, hu]
    exact ⟨rfl, rfl⟩

/-- C19, witness: the last slot of each table is read in bounds, and the
handlers return at the last key of the table in the shifted mode and at the
last alternative key in the alt layer. -/
theorem C19_reads_in_bounds_witness :
    (shifted_keymapping[111]?).isSome = true ∧ (altKeyCodes[7]?).isSome = true ∧
    (OnKeyDown { State.init with SHIFTED := true } 0 111).isSome = true ∧
    (OnKeyUp { State.init with leftGUI := 1 } 0 0x3E).isSome = true :=
  ⟨C19_reads_in_bounds.2.2.2.2.2.2.1 111 (by decide),
   C19_reads_in_bounds.2.2.2.2.2.2.2.1 7 (by decide),
   (C19_reads_in_bounds.2.2.2.2.2.2.2.2.2 { State.init with SHIFTED := true } 0 111).1,
   (C19_reads_in_bounds.2.2.2.2.2.2.2.2.2 { State.init with leftGUI := 1 } 0 0x3E).2⟩

/-! ## C20 -/

/-- C20: for every keycode and every fixed state (so every value of `SHIFTED`
and `leftGUI`), `OnKeyDown` appends bytes `d` and `OnKeyUp` bytes `u` to the
keyboard stream, changing nothing else, where `d` is empty if and only if `u`
is empty; otherwise `d` has one or three bytes of which exactly one, `p`, is
not a Shift byte (`0x70` / `0xF0`), `p` has bit 7 clear, and `u` is the single
byte `p | 0x80`, which has bit 7 set: the scancode released is the scancode
pressed. -/
theorem C20_release_undoes_press (s : State) (mod key : Nat) :
    ∃ d u,
      OnKeyDown s mod key = some { s with Serial := s.Serial ++ d } ∧
      OnKeyUp s mod key = some { s with Serial := s.Serial ++ u } ∧
      (d = [] ↔ u = []) ∧
      (d ≠ [] → ∃ p,
        (d.length = 1 ∨ d.length = 3) ∧
        d.filter (fun b => !isShiftByte b) = [p] ∧ p < 128 ∧
        u = [p ||| 0x80] ∧ 128 ≤ p ||| 0x80) := by
  obtain ⟨d, u, hd, hu, _, _, hiff, hr, hne⟩ :=
    key_bytes s.SHIFTED (decide (s.leftGUI ≠ 0)) key
  refine ⟨d, u, ?_, ?_, hiff, ?_⟩
  · rw [OnKeyDown_frame, hd]; rfl
  · rw [OnKeyUp_frame, hu]; rfl
  · intro hd0
    obtain ⟨hlen, hflen, hp, hmap⟩ := hne hd0
    obtain ⟨p, hfp⟩ := List.length_eq_one.mp hflen
    have hu1 : u = [p ||| 0x80] := by rw [hmap, hfp]; rfl
    refine ⟨p, hlen, hfp, hp p (by rw [hfp]; exact List.mem_singleton_self p), hu1, ?_⟩
    exact hr (p ||| 0x80) (by rw [hu1]; exact List.mem_singleton_self _)

/-- C20, witness: the force-shift key `0x32` unshifted is pressed as
`0x70, 0x04, 0xF0` and released as `0x84`. -/
theorem C20_release_undoes_press_witness :
    ∃ d u,
      OnKeyDown State.init 0 0x32 = some { State.init with Serial := [] ++ d } ∧
      OnKeyUp State.init 0 0x32 = some { State.init with Serial := [] ++ u } ∧
      (d = [] ↔ u = []) := by
  obtain ⟨d, u, h1, h2, h3, _⟩ := C20_release_undoes_press State.init 0 0x32
  exact ⟨d, u, h1, h2, h3⟩

/-! ## C21 -/

/-- Pressing Left-Shift alone (`0x00 → 0x02`) writes the Shift press and sets
`SHIFTED`. -/
theorem OnControlKeysChanged_press_left_shift (s : State) :
    OnControlKeysChanged s 0x00 0x02 =
      { s with SHIFTED := true, Serial := s.Serial ++ [0x70] } := by
  simp [OnControlKeysChanged, MODIFIERKEYS.ofByte, State.write_eq, PRESS, SHIFT_SCAN]
  decide

/-- C21: the release scancode is recomputed from `SHIFTED` at release time, so
the scancode released can differ from the one pressed. From any state with
`SHIFTED` false and the alt layer inactive: `OnKeyDown(0x24)` appends `0x08`;
`OnControlKeysChanged(0x00, 0x02)` then appends `0x70` and sets `SHIFTED`;
`OnKeyUp(0x24)` then appends `0x87`, the release of `0x07`. The three calls
append exactly `0x08, 0x70, 0x87`: the release `0x88` of the pressed scancode
is not among the bytes written, although releasing the key before the Shift
change would have written it. -/
theorem C21_release_recomputed (s : State) (mod : Nat) (hS : s.SHIFTED = false)
    (hG : s.leftGUI = 0) :
    OnKeyDown s mod 0x24 = some { s with Serial := s.Serial ++ [0x08] } ∧
    OnControlKeysChanged { s with Serial := s.Serial ++ [0x08] } 0x00 0x02 =
      { s with SHIFTED := true, Serial := s.Serial ++ [0x08, 0x70] } ∧
    OnKeyUp { s with SHIFTED := true, Serial := s.Serial ++ [0x08, 0x70] } mod 0x24 =
      some { s with SHIFTED := true, Serial := s.Serial ++ [0x08, 0x70, 0x87] } ∧
    0x88 ∉ [0x08, 0x70, 0x87] ∧
    OnKeyUp { s with Serial := s.Serial ++ [0x08] } mod 0x24 =
      some { s with Serial := s.Serial ++ [0x08, 0x88] } := by
  have hd : downBytes false false 0x24 = some [0x08] := by decide
  have hu : upBytes true false 0x24 = some [0x87] := by decide
  have hu0 : upBytes false false 0x24 = some [0x88] := by decide
  refine ⟨?_, ?_, ?_, by decide, ?_⟩
  · rw [OnKeyDown_frame]
    simp [hS, hG, hd]
  · rw [OnControlKeysChanged_press_left_shift]
    simp
  · rw [OnKeyUp_frame]
    simp [hG, hu]
  · rw [OnKeyUp_frame]
    simp [hS, hG, hu0]

/-- C21, witness: from the initial state the keyboard stream after the three
calls is `0x08, 0x70, 0x87`. -/
theorem C21_release_recomputed_witness :
    OnKeyDown State.init 0 0x24 = some { State.init with Serial := [0x08] } ∧
    OnControlKeysChanged { State.init with Serial := [0x08] } 0x00 0x02 =
      { State.init with SHIFTED := true, Serial := [0x08, 0x70] } ∧
    OnKeyUp { State.init with SHIFTED := true, Serial := [0x08, 0x70] } 0 0x24 =
      some { State.init with SHIFTED := true, Serial := [0x08, 0x70, 0x87] } := by
  have h := C21_release_recomputed State.init 0 rfl rfl
  exact ⟨h.1, h.2.1, h.2.2.1⟩

end X68Key
